import Mathlib

/-!
Verification development for the `midea_beautiful.scanner` module: LAN
discovery of appliances and reconciliation against a cloud inventory.

The module is embedded shallowly: every stateful Python construct becomes
explicit state passing, a Python `set` becomes a duplicate-free list, the
`KeyError` that `set.remove` may raise becomes an `Except` error, and the
replies that the UDP socket would deliver are passed in as explicit data
(one list of `(source address, decoded descriptor)` pairs per broadcast
pass).  External collaborators that are not part of the scanner source
(the support predicate, the identity check, payload decoding and the
matcher from `midea_beautiful.lan`) are modelled from the specification
and marked as such in their doc comments.
-/

/-- A decoded device descriptor / accumulated appliance record
(`midea_beautiful.lan.LanDevice` as the scanner uses it): device id,
appliance type code, network address (absent for placeholders), serial
number and display name.  Modelled from the spec: the decoder itself is
external to the scanner source; the spec only requires a device id, a
device-type code and an optional serial number, with the source network
address as the descriptor's address. -/
structure LanDevice where
  id : Nat
  type : Nat
  ip : Option String
  sn : Option String
  name : Option String
deriving Repr, DecidableEq

/-- A cloud inventory record (one element of `cloud.list_appliances()`):
id, device-type code, serial number and display name. -/
structure CloudRecord where
  id : Nat
  type : Nat
  sn : String
  name : String
deriving Repr, DecidableEq

/-- Modelled from the spec: `midea_beautiful.lan.matches_lan_cloud` is not
part of the scanner source.  Two identifiers denote the same device when
their serial numbers are equal and non-empty, or — if no serial number is
available on the network side — when the device id embedded in the
discovery reply equals the cloud record id. -/
def matches_lan_cloud (lan : LanDevice) (known : CloudRecord) : Bool :=
  match lan.sn with
  | some s => !(s == "") && known.sn == s
  | none => lan.id == known.id

/-- Modelled from the spec: `LanDevice.update` (called for an already
known appliance whose address changed) replaces the stored network
address in place; id and serial number remain unchanged. -/
def LanDevice.update (appliance scanned : LanDevice) : LanDevice :=
  { appliance with ip := scanned.ip }

/-- External collaborators of the collector, modelled from the spec:
`sup` is the device-support predicate `Appliance.supported` applied to a
type code, and `idf` the per-descriptor identity check
`LanDevice.is_identified` used when a cloud session is present. -/
structure ScanEnv where
  sup : Nat → Bool
  idf : LanDevice → Bool

/-- Receive loop of `MideaDiscovery.collect_appliances`: drain the given
replies in order; a reply whose source address was already seen (in this
pass or in any earlier pass of the same collector) is dropped, otherwise
the address is recorded and the decoded descriptor kept when its type is
supported.  Returns the grown known-address set and the kept
descriptors. -/
def collect_loop (env : ScanEnv) :
    List String → List (String × LanDevice) → List String × List LanDevice
  | known_ips, [] => (known_ips, [])
  | known_ips, (addr, d) :: rest =>
    if addr ∈ known_ips then collect_loop env known_ips rest
    else
      let res := collect_loop env (addr :: known_ips) rest
      if env.sup d.type then (res.fst, d :: res.snd) else (res.fst, res.snd)

/-- `MideaDiscovery.collect_appliances`: the receive loop followed by the
final filter `sd.is_identified(self._cloud)`.  Modelled from the spec:
the identity check applies when a cloud session was supplied to the
collector. -/
def collect_appliances (env : ScanEnv) (cloud_present : Bool)
    (known_ips : List String) (replies : List (String × LanDevice)) :
    List String × List LanDevice :=
  let res := collect_loop env known_ips replies
  (res.fst, res.snd.filter (fun d => !cloud_present || env.idf d))

/-- A Python `set` of ids, modelled as a duplicate-free list: membership,
size and removal are all the scanner needs. -/
def idSet : List Nat → List Nat
  | [] => []
  | x :: xs => if x ∈ xs then idSet xs else x :: idSet xs

/-- The state threaded through the retry loop of
`_find_appliances_on_lan`: the collector's known-address set, the
accumulating appliance list, the pending cloud ids
(`known_cloud_appliances`) and the number of passes executed. -/
structure ScanState where
  known_ips : List String
  appliances : List LanDevice
  pending : List Nat
  passes : Nat
deriving Repr, DecidableEq

/-- Inner loop `for appliance in appliances: if appliance.id ==
scanned.id: ... break`: the first appliance with the scanned id has its
address updated in place when it differs; everything else is left
alone. -/
def updateFirstById : List LanDevice → LanDevice → List LanDevice
  | [], _ => []
  | a :: rest, scanned =>
    if a.id == scanned.id then
      (if a.ip != scanned.ip then a.update scanned else a) :: rest
    else a :: updateFirstById rest scanned

/-- First cloud record matching the scanned descriptor, as the
`for details in cloud_appliances` loop finds it. -/
def findCloudMatch (records : List CloudRecord) (scanned : LanDevice) :
    Option CloudRecord :=
  records.find? (fun r => matches_lan_cloud scanned r)

/-- Processing of one scanned descriptor inside a pass: run the
update-in-place loop, then the cloud-matching loop, which on a match sets
the display name, appends the descriptor and removes the record id from
the pending set — raising `KeyError` (the `Except` error) when the id is
not there, exactly as `set.remove` does. -/
def processScanned (records : List CloudRecord)
    (st : List LanDevice × List Nat) (scanned : LanDevice) :
    Except Unit (List LanDevice × List Nat) :=
  let apps := updateFirstById st.fst scanned
  match findCloudMatch records scanned with
  | some r =>
    if r.id ∈ st.snd then
      .ok (apps ++ [{ scanned with name := some r.name }], st.snd.erase r.id)
    else .error ()
  | none => .ok (apps, st.snd)

/-- Stable insertion of a descriptor into a list sorted by device id: the
inserted element goes before the first element with an id not below its
own. -/
def insertById (d : LanDevice) : List LanDevice → List LanDevice
  | [] => [d]
  | a :: rest =>
    if d.id ≤ a.id then d :: a :: rest else a :: insertById d rest

/-- Sorting of the collected descriptors by device id
(`scanned_appliances.sort(key=lambda appliance: appliance.id)`, a stable
sort). -/
def sortById : List LanDevice → List LanDevice
  | [] => []
  | d :: rest => insertById d (sortById rest)

/-- The `for scanned in scanned_appliances` loop: process each descriptor
in turn, an exception aborting the rest. -/
def processList (records : List CloudRecord) :
    List LanDevice → (List LanDevice × List Nat) →
    Except Unit (List LanDevice × List Nat)
  | [], st => .ok st
  | d :: rest, st =>
    match processScanned records st d with
    | .error e => .error e
    | .ok st' => processList records rest st'

/-- The body of one pass, descriptor processing only: sort the collected
descriptors by id and run the per-descriptor loop over them. -/
def processPass (records : List CloudRecord)
    (st : List LanDevice × List Nat) (collected : List LanDevice) :
    Except Unit (List LanDevice × List Nat) :=
  processList records (sortById collected) st

/-- One iteration of the retry loop: collect a pass worth of replies
through the (persistent) collector state, then process the descriptors. -/
def onePass (env : ScanEnv) (records : List CloudRecord) (cloud_present : Bool)
    (st : ScanState) (replies : List (String × LanDevice)) :
    Except Unit ScanState :=
  let col := collect_appliances env cloud_present st.known_ips replies
  match processPass records (st.appliances, st.pending) col.snd with
  | .error e => .error e
  | .ok res => .ok ⟨col.fst, res.fst, res.snd, st.passes + 1⟩

/-- The retry loop `for i in range(retries)` of `_find_appliances_on_lan`:
run a pass, then `break` as soon as the pending id set is empty.  The
i-th pass consumes the i-th element of `passes` (an exhausted reply
schedule yields empty passes, as a timed-out socket would). -/
def runPasses (env : ScanEnv) (records : List CloudRecord)
    (cloud_present : Bool) :
    Nat → List (List (String × LanDevice)) → ScanState →
    Except Unit ScanState
  | 0, _, st => .ok st
  | n + 1, passes, st =>
    match onePass env records cloud_present st (passes.headD []) with
    | .error e => .error e
    | .ok st' =>
      if st'.pending.length = 0 then .ok st'
      else runPasses env records cloud_present n passes.tail st'

/-- `local.sn = known["sn"] if local.sn is None; local.name =
known["name"]` — the cloud metadata written onto a matched or synthesized
appliance by `_add_missing_appliances`. -/
def setNameSn (known : CloudRecord) (lan : LanDevice) : LanDevice :=
  { lan with
    sn := match lan.sn with | none => some known.sn | some s => some s,
    name := some known.name }

/-- The `for local in appliances ... break / else` search of
`_add_missing_appliances`: mutate the first appliance matching the cloud
record, or report that none does. -/
def mutFirstMatch (known : CloudRecord) :
    List LanDevice → Option (List LanDevice)
  | [] => none
  | a :: rest =>
    if matches_lan_cloud a known then some (setNameSn known a :: rest)
    else (mutFirstMatch known rest).map (a :: ·)

/-- One cloud record of `_add_missing_appliances`: unsupported records
are skipped; a record matching an appliance mutates it in place; a record
matching none appends a fresh placeholder `LanDevice(id=..,
appliance_type=..)` and then writes the cloud serial number and name onto
it. -/
def addMissingStep (env : ScanEnv) (appliances : List LanDevice)
    (known : CloudRecord) : List LanDevice :=
  if env.sup known.type then
    match mutFirstMatch known appliances with
    | some appliances' => appliances'
    | none =>
      appliances ++
        [setNameSn known ⟨known.id, known.type, none, none, none⟩]
  else appliances

/-- `_add_missing_appliances`: fold the per-record step over the cloud
records. -/
def add_missing_appliances (env : ScanEnv) (records : List CloudRecord)
    (appliances : List LanDevice) : List LanDevice :=
  records.foldl (addMissingStep env) appliances

/-- `_BROADCAST_RETRIES`. -/
def BROADCAST_RETRIES : Nat := 3

/-- The number of supported registered cloud records
(`sum(Appliance.supported(a["type"]) for a in cloud_appliances)`). -/
def supportedCount (env : ScanEnv) (records : List CloudRecord) : Nat :=
  (records.filter (fun r => env.sup r.type)).length

/-- `_find_appliances_on_lan` with an explicit retry budget: list the
cloud inventory, run the retry loop from an empty state, and when fewer
appliances were located than there are supported registered records,
synthesize the missing ones. -/
def find_appliances_on_lan_retries (env : ScanEnv)
    (cloud : Option (List CloudRecord))
    (passes : List (List (String × LanDevice))) (retries : Nat) :
    Except Unit (List LanDevice) :=
  let records := cloud.getD []
  let pending := idSet (records.map (·.id))
  match runPasses env records cloud.isSome retries passes
      ⟨[], [], pending, 0⟩ with
  | .error e => .error e
  | .ok st =>
    if st.appliances.length < supportedCount env records then
      .ok (add_missing_appliances env records st.appliances)
    else
      .ok st.appliances

/-- `_find_appliances_on_lan` proper, with the fixed retry budget. -/
def find_appliances_on_lan (env : ScanEnv)
    (cloud : Option (List CloudRecord))
    (passes : List (List (String × LanDevice))) :
    Except Unit (List LanDevice) :=
  find_appliances_on_lan_retries env cloud passes BROADCAST_RETRIES

/-- An IPv4 network as `_get_broadcast_addresses` inspects it, with the
`ipaddress` predicates the scanner consults and the resulting broadcast
address.  `ipaddress` and `ifaddr` are external collaborators; their
classification of a network is carried as data. -/
structure IPv4Net where
  is_loopback : Bool
  is_link_local : Bool
  is_private : Bool
  is_IPv4 : Bool
  broadcast_address : String
deriving Repr, DecidableEq

/-- Failures that escape the discovery entry point: the configuration
error (`MideaError: No valid networks to send broadcast to`) and the
`KeyError` escaping the reconciliation loop. -/
inductive ScanError where
  | config
  | keyError
deriving Repr, DecidableEq

/-- `_get_broadcast_addresses`: caller-supplied addresses are kept unless
loopback or link-local; absent any, the adapter networks are kept when
IPv4, private, not loopback and not link-local.  When nothing survives, a
`MideaError` is raised; otherwise the broadcast addresses are returned. -/
def get_broadcast_addresses (addresses : List IPv4Net)
    (adapter_ips : List IPv4Net) : Except ScanError (List String) :=
  let nets :=
    if addresses.isEmpty then
      adapter_ips.filter (fun n =>
        n.is_IPv4 && n.is_private && !n.is_loopback && !n.is_link_local)
    else
      addresses.filter (fun n => !n.is_loopback && !n.is_link_local)
  if nets.isEmpty then .error .config
  else .ok (nets.map (·.broadcast_address))

/-- `find_appliances`: resolve the broadcast addresses first (a
configuration error aborts before any discovery I/O), then run the LAN
discovery; a `KeyError` from the loop propagates to the caller. -/
def find_appliances (env : ScanEnv) (cloud : Option (List CloudRecord))
    (networks : List IPv4Net) (adapter_ips : List IPv4Net)
    (passes : List (List (String × LanDevice))) :
    Except ScanError (List LanDevice) :=
  match get_broadcast_addresses networks adapter_ips with
  | .error e => .error e
  | .ok _ =>
    match find_appliances_on_lan env cloud passes with
    | .ok appliances => .ok appliances
    | .error _ => .error .keyError

/-- Relation between an appliance record before and after a pass: every
field except the network address is unchanged. -/
def OnlyIpChanged (a b : LanDevice) : Prop :=
  b.id = a.id ∧ b.type = a.type ∧ b.sn = a.sn ∧ b.name = a.name

/-- Invariant of the reconciliation loop (for inventories whose records
have pairwise distinct ids and serial numbers): the pending set is a
duplicate-free subset of the registered ids, one appliance has been
accumulated per registered record no longer pending, records still
pending match no accumulated appliance, and records no longer pending
match at least one. -/
def ReconInv (records : List CloudRecord) (apps : List LanDevice)
    (pending : List Nat) : Prop :=
  pending.Nodup ∧
  (∀ i ∈ pending, i ∈ records.map CloudRecord.id) ∧
  apps.length + pending.length = records.length ∧
  (∀ r ∈ records, r.id ∉ pending →
    ∃ a ∈ apps, matches_lan_cloud a r = true) ∧
  (∀ r ∈ records, r.id ∈ pending →
    ∀ a ∈ apps, matches_lan_cloud a r = false)

/-! ## Helper lemmas -/

theorem OnlyIpChanged.refl (a : LanDevice) : OnlyIpChanged a a :=
  ⟨rfl, rfl, rfl, rfl⟩

theorem OnlyIpChanged.trans {a b c : LanDevice}
    (h1 : OnlyIpChanged a b) (h2 : OnlyIpChanged b c) : OnlyIpChanged a c :=
  ⟨h2.1.trans h1.1, h2.2.1.trans h1.2.1, h2.2.2.1.trans h1.2.2.1,
    h2.2.2.2.trans h1.2.2.2⟩

theorem update_only_ip (a d : LanDevice) : OnlyIpChanged a (a.update d) :=
  ⟨rfl, rfl, rfl, rfl⟩

theorem updateFirstById_length (apps : List LanDevice) (d : LanDevice) :
    (updateFirstById apps d).length = apps.length := by
  induction apps with
  | nil => rfl
  | cons a rest ih =>
    simp only [updateFirstById]
    split
    · simp
    · simp [ih]

theorem updateFirstById_getElem? (apps : List LanDevice) (d : LanDevice) :
    ∀ (i : Nat) (a : LanDevice), apps[i]? = some a →
      ∃ b, (updateFirstById apps d)[i]? = some b ∧ OnlyIpChanged a b := by
  induction apps with
  | nil => intro i a h; simp at h
  | cons x rest ih =>
    intro i a h
    match i with
    | 0 =>
      simp only [List.getElem?_cons_zero, Option.some.injEq] at h
      subst h
      simp only [updateFirstById]
      split
      · split
        · exact ⟨x.update d, by simp, update_only_ip x d⟩
        · exact ⟨x, by simp, OnlyIpChanged.refl x⟩
      · exact ⟨x, by simp, OnlyIpChanged.refl x⟩
    | i + 1 =>
      simp only [List.getElem?_cons_succ] at h
      simp only [updateFirstById]
      split
      · exact ⟨a, by simpa using h, OnlyIpChanged.refl a⟩
      · obtain ⟨b, hb, hab⟩ := ih i a h
        exact ⟨b, by simpa using hb, hab⟩

theorem processScanned_ok_cases (records : List CloudRecord)
    (st : List LanDevice × List Nat) (d : LanDevice)
    (res : List LanDevice × List Nat)
    (h : processScanned records st d = .ok res) :
    res = (updateFirstById st.fst d, st.snd) ∨
    ∃ r, findCloudMatch records d = some r ∧ r.id ∈ st.snd ∧
      res = (updateFirstById st.fst d ++ [{ d with name := some r.name }],
        st.snd.erase r.id) := by
  cases hm : findCloudMatch records d with
  | none =>
    simp only [processScanned, hm] at h
    exact Or.inl (by injection h with h; exact h.symm)
  | some r =>
    simp only [processScanned, hm] at h
    by_cases hmem : r.id ∈ st.snd
    · rw [if_pos hmem] at h
      exact Or.inr ⟨r, rfl, hmem, by injection h with h; exact h.symm⟩
    · rw [if_neg hmem] at h; exact absurd h (by simp)

theorem processScanned_frame (records : List CloudRecord)
    (st : List LanDevice × List Nat) (d : LanDevice)
    (res : List LanDevice × List Nat)
    (h : processScanned records st d = .ok res) :
    st.fst.length ≤ res.fst.length ∧
    ∀ (i : Nat) (a : LanDevice), st.fst[i]? = some a →
      ∃ b, res.fst[i]? = some b ∧ OnlyIpChanged a b := by
  rcases processScanned_ok_cases records st d res h with h1 | ⟨r, _, _, h1⟩
  · subst h1
    exact ⟨by simp [updateFirstById_length],
      fun i a ha => updateFirstById_getElem? st.fst d i a ha⟩
  · subst h1
    constructor
    · simp [updateFirstById_length]
    · intro i a ha
      obtain ⟨b, hb, hab⟩ := updateFirstById_getElem? st.fst d i a ha
      have hi : i < (updateFirstById st.fst d).length := by
        rw [updateFirstById_length]
        have := List.getElem?_eq_some.mp ha
        exact this.1
      exact ⟨b, by simpa [List.getElem?_append_left hi] using hb, hab⟩

theorem processList_frame (records : List CloudRecord) :
    ∀ (ds : List LanDevice) (st res : List LanDevice × List Nat),
      processList records ds st = .ok res →
      st.fst.length ≤ res.fst.length ∧
      ∀ (i : Nat) (a : LanDevice), st.fst[i]? = some a →
        ∃ b, res.fst[i]? = some b ∧ OnlyIpChanged a b := by
  intro ds
  induction ds with
  | nil =>
    intro st res h
    injection h with h
    subst h
    exact ⟨le_rfl, fun i a ha => ⟨a, ha, OnlyIpChanged.refl a⟩⟩
  | cons d rest ih =>
    intro st res h
    unfold processList at h
    cases hstep : processScanned records st d with
    | error e => rw [hstep] at h; exact absurd h (by simp)
    | ok st1 =>
      rw [hstep] at h
      obtain ⟨hl1, hp1⟩ := processScanned_frame records st d st1 hstep
      obtain ⟨hl2, hp2⟩ := ih st1 res h
      refine ⟨le_trans hl1 hl2, fun i a ha => ?_⟩
      obtain ⟨b, hb, hab⟩ := hp1 i a ha
      obtain ⟨c, hc, hbc⟩ := hp2 i b hb
      exact ⟨c, hc, hab.trans hbc⟩

theorem processPass_frame (records : List CloudRecord)
    (st res : List LanDevice × List Nat) (collected : List LanDevice)
    (h : processPass records st collected = .ok res) :
    st.fst.length ≤ res.fst.length ∧
    ∀ (i : Nat) (a : LanDevice), st.fst[i]? = some a →
      ∃ b, res.fst[i]? = some b ∧ OnlyIpChanged a b :=
  processList_frame records (sortById collected) st res h

theorem updateFirstById_first_match (l1 : List LanDevice) (a : LanDevice)
    (l2 : List LanDevice) (d : LanDevice)
    (hno : ∀ b ∈ l1, b.id ≠ d.id) (hid : a.id = d.id) (hip : a.ip ≠ d.ip) :
    updateFirstById (l1 ++ a :: l2) d = l1 ++ a.update d :: l2 := by
  induction l1 with
  | nil =>
    simp only [List.nil_append, updateFirstById]
    rw [if_pos (by simpa using hid), if_pos (by simpa using hip)]
  | cons x t ih =>
    have hx : ¬(x.id == d.id) = true := by
      simpa using hno x (by simp)
    simp only [List.cons_append, updateFirstById]
    rw [if_neg hx]
    exact congrArg (x :: ·) (ih (fun b hb => hno b (by simp [hb])))

theorem processScanned_nil_records (st : List LanDevice × List Nat)
    (d : LanDevice) :
    processScanned [] st d = .ok (updateFirstById st.fst d, st.snd) := rfl

theorem processList_nil_records_nil_apps :
    ∀ (ds : List LanDevice) (pend : List Nat),
      processList [] ds ([], pend) = .ok ([], pend) := by
  intro ds
  induction ds with
  | nil => intro pend; rfl
  | cons d rest ih =>
    intro pend
    simpa [processList, processScanned_nil_records, updateFirstById]
      using ih pend

theorem processList_nil_records :
    ∀ (ds : List LanDevice) (st : List LanDevice × List Nat),
      ∃ apps', processList [] ds st = .ok (apps', st.snd) := by
  intro ds
  induction ds with
  | nil => intro st; exact ⟨st.fst, rfl⟩
  | cons d rest ih =>
    intro st
    obtain ⟨apps', h⟩ := ih (updateFirstById st.fst d, st.snd)
    exact ⟨apps', by
      simpa [processList, processScanned_nil_records] using h⟩

theorem onePass_ok_shape (env : ScanEnv) (records : List CloudRecord)
    (cp : Bool) (st : ScanState) (replies : List (String × LanDevice))
    (st' : ScanState) (h : onePass env records cp st replies = .ok st') :
    ∃ res, processPass records (st.appliances, st.pending)
        (collect_appliances env cp st.known_ips replies).snd = .ok res ∧
      st' = ⟨(collect_appliances env cp st.known_ips replies).fst,
        res.fst, res.snd, st.passes + 1⟩ := by
  simp only [onePass] at h
  cases hp : processPass records (st.appliances, st.pending)
      (collect_appliances env cp st.known_ips replies).snd with
  | error e => rw [hp] at h; exact absurd h (by simp)
  | ok res =>
    rw [hp] at h
    exact ⟨res, rfl, by injection h with h; exact h.symm⟩

theorem onePass_nil_records (env : ScanEnv) (cp : Bool) (st : ScanState)
    (replies : List (String × LanDevice)) :
    ∃ st', onePass env [] cp st replies = .ok st' ∧
      st'.pending = st.pending ∧ st'.passes = st.passes + 1 := by
  obtain ⟨apps', h⟩ := processList_nil_records
    (sortById (collect_appliances env cp st.known_ips replies).snd)
    (st.appliances, st.pending)
  exact ⟨⟨(collect_appliances env cp st.known_ips replies).fst, apps',
      st.pending, st.passes + 1⟩,
    by simp only [onePass, processPass]; rw [h], rfl, rfl⟩

theorem runPasses_early_exit (env : ScanEnv) (records : List CloudRecord)
    (cp : Bool) :
    ∀ (r : Nat) (passes : List (List (String × LanDevice)))
      (st st' : ScanState),
      runPasses env records cp r passes st = .ok st' →
      st'.passes < st.passes + r → st'.pending = [] := by
  intro r
  induction r with
  | zero =>
    intro passes st st' h hlt
    injection h with h
    subst h
    exact absurd hlt (by omega)
  | succ n ih =>
    intro passes st st' h hlt
    simp only [runPasses] at h
    cases h1 : onePass env records cp st (passes.headD []) with
    | error e => rw [h1] at h; exact absurd h (by simp)
    | ok st1 =>
      rw [h1] at h
      replace h : (if st1.pending.length = 0 then Except.ok st1
          else runPasses env records cp n passes.tail st1) = Except.ok st' := h
      obtain ⟨res, _, hshape⟩ :=
        onePass_ok_shape env records cp st (passes.headD []) st1 h1
      by_cases hp : st1.pending.length = 0
      · rw [if_pos hp] at h
        injection h with h
        subst h
        exact List.length_eq_zero.mp hp
      · rw [if_neg hp] at h
        have hpass : st1.passes = st.passes + 1 := by rw [hshape]
        exact ih passes.tail st1 st' h (by omega)

theorem runPasses_nil_records_one_pass (env : ScanEnv) (cp : Bool)
    (r : Nat) (hr : 1 ≤ r) (passes : List (List (String × LanDevice)))
    (st : ScanState) (hpend : st.pending = []) :
    ∃ st', runPasses env [] cp r passes st = .ok st' ∧
      st'.passes = st.passes + 1 := by
  obtain ⟨n, rfl⟩ : ∃ n, r = n + 1 := ⟨r - 1, by omega⟩
  obtain ⟨st1, h1, hp, hpass⟩ := onePass_nil_records env cp st (passes.headD [])
  refine ⟨st1, ?_, hpass⟩
  simp only [runPasses]
  rw [h1]
  show (if st1.pending.length = 0 then Except.ok st1
      else runPasses env [] cp n passes.tail st1) = Except.ok st1
  rw [if_pos (by simp [hp, hpend])]

theorem runPasses_no_cloud (env : ScanEnv) (cp : Bool) (r : Nat)
    (passes : List (List (String × LanDevice))) (ips : List String) (n : Nat) :
    ∃ ips' n', runPasses env [] cp r passes ⟨ips, [], [], n⟩ =
      .ok ⟨ips', [], [], n'⟩ := by
  cases r with
  | zero => exact ⟨ips, n, rfl⟩
  | succ m =>
    refine ⟨(collect_appliances env cp ips (passes.headD [])).fst, n + 1, ?_⟩
    simp only [runPasses, onePass, processPass]
    rw [processList_nil_records_nil_apps]
    simp

/-! ## Claim theorems -/

/-- C1: the spec says that in no-cloud mode every supported device found
is accepted and returned.  The code does the opposite: with no cloud
session `cloud_appliances` is empty, the matching loop never matches, the
`for/else` warning fires and nothing is ever appended, so the returned
list is empty for every reply schedule and retry budget — in particular
for the claimed scenario of one pass with two distinct supported replies
from two distinct addresses. -/
theorem find_appliances_no_cloud_empty (env : ScanEnv)
    (passes : List (List (String × LanDevice))) (retries : Nat) :
    find_appliances_on_lan_retries env none passes retries = .ok [] := by
  obtain ⟨ips', n', h⟩ := runPasses_no_cloud env false retries passes [] 0
  simp only [find_appliances_on_lan_retries, Option.getD_none, Option.isSome_none,
    List.map_nil]
  rw [show idSet [] = [] from rfl, h]
  simp [supportedCount]

/-- C5 (amended): the retry loop exits early exactly when the pending id
set — seeded with the ids of all registered cloud records, supported or
not — becomes empty after a pass; this break is not guarded by cloud
presence, so with no cloud session the pending set starts empty and the
loop runs exactly one pass instead of all `maxRetries`. -/
theorem retry_loop_exit_characterization (env : ScanEnv)
    (records : List CloudRecord) (cp : Bool) (r : Nat)
    (passes : List (List (String × LanDevice))) (st : ScanState) :
    (∀ st', runPasses env records cp r passes st = .ok st' →
      st'.passes < st.passes + r → st'.pending = []) ∧
    (records = [] → st.pending = [] → 1 ≤ r →
      ∃ st', runPasses env records cp r passes st = .ok st' ∧
        st'.passes = st.passes + 1) := by
  constructor
  · exact fun st' h hlt =>
      runPasses_early_exit env records cp r passes st st' h hlt
  · rintro rfl hpend hr
    exact runPasses_nil_records_one_pass env cp r hr passes st hpend

/-- Witness for C5: a concrete no-cloud run with a budget of three passes
stops after exactly one. -/
theorem retry_loop_exit_characterization_witness :
    ∃ st', runPasses ⟨fun _ => true, fun _ => true⟩ [] false 3 []
        ⟨[], [], [], 0⟩ = .ok st' ∧ st'.passes = 0 + 1 :=
  (retry_loop_exit_characterization ⟨fun _ => true, fun _ => true⟩ [] false 3
    [] ⟨[], [], [], 0⟩).2 rfl rfl (by omega)

/-- C5 counterexample: the claim says that with no cloud session the loop
runs all `maxRetries` passes.  In this concrete no-cloud run with three
retries and replies waiting in every pass, the loop stops after pass 1. -/
theorem no_cloud_single_pass_run :
    runPasses ⟨fun _ => true, fun _ => true⟩ [] false 3
      [[("10.0.0.5", ⟨10, 1, some "10.0.0.5", none, none⟩)],
        [("10.0.0.6", ⟨11, 1, some "10.0.0.6", none, none⟩)],
        [("10.0.0.7", ⟨12, 1, some "10.0.0.7", none, none⟩)]]
      ⟨[], [], [], 0⟩ =
      .ok ⟨["10.0.0.5"], [], [], 1⟩ := rfl

/-- C6: an already-known appliance is touched only through the in-place
address update.  First conjunct: when a scanned descriptor's id equals
the id of the first matching appliance and the address differs, that
appliance's stored address is replaced and its id and serial number are
unchanged.  Second conjunct (frame): across a whole pass, every appliance
slot that existed before keeps its id, type, serial number and name —
only the address may change — and the list only grows. -/
theorem known_appliance_update_frame :
    (∀ (l1 : List LanDevice) (a : LanDevice) (l2 : List LanDevice)
      (d : LanDevice), (∀ b ∈ l1, b.id ≠ d.id) → a.id = d.id →
      a.ip ≠ d.ip →
      updateFirstById (l1 ++ a :: l2) d = l1 ++ a.update d :: l2 ∧
      (a.update d).ip = d.ip ∧ (a.update d).id = a.id ∧
      (a.update d).sn = a.sn) ∧
    (∀ (records : List CloudRecord) (apps : List LanDevice)
      (pend : List Nat) (collected : List LanDevice)
      (res : List LanDevice × List Nat),
      processPass records (apps, pend) collected = .ok res →
      apps.length ≤ res.fst.length ∧
      ∀ (i : Nat) (a : LanDevice), apps[i]? = some a →
        ∃ b, res.fst[i]? = some b ∧ OnlyIpChanged a b) := by
  constructor
  · intro l1 a l2 d hno hid hip
    exact ⟨updateFirstById_first_match l1 a l2 d hno hid hip, rfl, rfl, rfl⟩
  · intro records apps pend collected res h
    exact processPass_frame records (apps, pend) res collected h

/-- Witness for C6: a two-element appliance list in which the second
entry's id matches a scanned descriptor with a new address. -/
theorem known_appliance_update_frame_witness :
    updateFirstById ([⟨5, 1, some "10.0.0.9", none, none⟩] ++
        ⟨7, 1, some "10.0.0.5", some "S7", none⟩ :: [])
        ⟨7, 1, some "10.0.0.6", none, none⟩ =
      [⟨5, 1, some "10.0.0.9", none, none⟩] ++
        LanDevice.update ⟨7, 1, some "10.0.0.5", some "S7", none⟩
          ⟨7, 1, some "10.0.0.6", none, none⟩ :: [] ∧
    (LanDevice.update ⟨7, 1, some "10.0.0.5", some "S7", none⟩
        ⟨7, 1, some "10.0.0.6", none, none⟩).ip = some "10.0.0.6" ∧
    (LanDevice.update ⟨7, 1, some "10.0.0.5", some "S7", none⟩
        ⟨7, 1, some "10.0.0.6", none, none⟩).id = 7 ∧
    (LanDevice.update ⟨7, 1, some "10.0.0.5", some "S7", none⟩
        ⟨7, 1, some "10.0.0.6", none, none⟩).sn = some "S7" :=
  known_appliance_update_frame.1 [⟨5, 1, some "10.0.0.9", none, none⟩]
    ⟨7, 1, some "10.0.0.5", some "S7", none⟩ []
    ⟨7, 1, some "10.0.0.6", none, none⟩
    (by intro b hb; simp at hb; subst hb; decide) rfl (by decide)

theorem collect_loop_drop (env : ScanEnv) (a : String) (d : LanDevice)
    (l2 : List (String × LanDevice)) :
    ∀ (l1 : List (String × LanDevice)) (known : List String),
      a ∈ known ∨ a ∈ l1.map Prod.fst →
      collect_loop env known (l1 ++ (a, d) :: l2) =
        collect_loop env known (l1 ++ l2) := by
  intro l1
  induction l1 with
  | nil =>
    intro known h
    replace h : a ∈ known := by simpa using h
    simp only [List.nil_append, collect_loop]
    rw [if_pos h]
  | cons p t ih =>
    obtain ⟨b, e⟩ := p
    intro known h
    simp only [List.cons_append, collect_loop]
    by_cases hb : b ∈ known
    · rw [if_pos hb, if_pos hb]
      apply ih
      rcases h with h | h
      · exact Or.inl h
      · simp only [List.map_cons, List.mem_cons] at h
        rcases h with rfl | h
        · exact Or.inl hb
        · exact Or.inr h
    · rw [if_neg hb, if_neg hb]
      have hrec := ih (b :: known) (by
        rcases h with h | h
        · exact Or.inl (List.mem_cons_of_mem b h)
        · simp only [List.map_cons, List.mem_cons] at h
          rcases h with rfl | h
          · exact Or.inl (List.mem_cons_self a known)
          · exact Or.inr h)
      simp only [List.append_eq]
      rw [hrec]

/-- C7 (amended): within the receive loop, replies are deduplicated
strictly by source address — a reply whose address appears among the
earlier replies of the pass, or in the known-address set carried over
from earlier passes of the same run, is dropped regardless of payload.
(The set belongs to the collector, which is created once per discovery
run, so it persists across passes rather than being reset per pass.) -/
theorem dedup_by_source_address (env : ScanEnv) (cp : Bool)
    (known : List String) (l1 l2 : List (String × LanDevice))
    (a : String) (d : LanDevice)
    (h : a ∈ known ∨ a ∈ l1.map Prod.fst) :
    collect_appliances env cp known (l1 ++ (a, d) :: l2) =
      collect_appliances env cp known (l1 ++ l2) := by
  simp only [collect_appliances]
  rw [collect_loop_drop env a d l2 l1 known h]

/-- Witness for C7: a second reply from an address already seen in the
same pass is dropped even though its payload differs. -/
theorem dedup_by_source_address_witness :
    collect_appliances ⟨fun _ => true, fun _ => true⟩ false []
      ([("10.0.0.5", ⟨1, 1, some "10.0.0.5", none, none⟩)] ++
        ("10.0.0.5", ⟨2, 1, some "10.0.0.5", some "B", none⟩) :: []) =
    collect_appliances ⟨fun _ => true, fun _ => true⟩ false []
      ([("10.0.0.5", ⟨1, 1, some "10.0.0.5", none, none⟩)] ++ []) :=
  dedup_by_source_address ⟨fun _ => true, fun _ => true⟩ false [] _ []
    "10.0.0.5" ⟨2, 1, some "10.0.0.5", some "B", none⟩ (Or.inr (by simp))

/-- C7 counterexample: the claim says the address-deduplication set is
reset for every pass, so the collector mutates no state outliving a pass.
Here the appliance at address 10.0.0.5 answers in pass 1; in pass 2 a
different registered device answers from the same (reused) address, but
the persistent known-address set silently drops that fresh reply, and the
run ends with a synthesized placeholder (no address) for the second
device instead of its observed reply. -/
theorem cross_pass_dedup_drops_new_reply :
    find_appliances_on_lan ⟨fun t => t == 1, fun _ => true⟩
      (some [⟨1, 1, "A", "n1"⟩, ⟨2, 1, "B", "n2"⟩])
      [[("10.0.0.5", ⟨1, 1, some "10.0.0.5", some "A", none⟩)],
        [("10.0.0.5", ⟨2, 1, some "10.0.0.5", some "B", none⟩)], []] =
      .ok [⟨1, 1, some "10.0.0.5", some "A", some "n1"⟩,
        ⟨2, 1, none, some "B", some "n2"⟩] := rfl

/-- C2: the spec claims the returned appliance list never contains two
entries with the same device id.  The code appends a matched descriptor
even when its id already matched an existing appliance (the matching loop
is not guarded by the update loop's break), so when a second descriptor
reuses device id 1 but matches a different cloud record by serial number,
the run returns two entries with id 1. -/
theorem duplicate_id_returned_run :
    find_appliances_on_lan ⟨fun t => t == 1, fun _ => true⟩
      (some [⟨1, 1, "A", "n1"⟩, ⟨2, 1, "B", "n2"⟩])
      [[("10.0.0.5", ⟨1, 1, some "10.0.0.5", some "A", none⟩)],
        [("10.0.0.6", ⟨1, 1, some "10.0.0.6", some "B", none⟩)]] =
      .ok [⟨1, 1, some "10.0.0.6", some "A", some "n1"⟩,
        ⟨1, 1, some "10.0.0.6", some "B", some "n2"⟩] := rfl

/-- C8: the spec claims processing the same collected descriptor set in
two consecutive passes is idempotent.  In the code, the second pass finds
the existing appliance by id (no address update, as the address is
unchanged) but then still runs the matching loop: the descriptor matches
the same cloud record again, is appended as a duplicate and the
`set.remove` of the already-removed record id raises `KeyError`. -/
theorem second_identical_pass_crashes :
    processPass [⟨1, 1, "A", "n1"⟩, ⟨2, 1, "B", "n2"⟩]
        ([], [1, 2]) [⟨1, 1, some "10.0.0.5", some "A", none⟩] =
      .ok ([⟨1, 1, some "10.0.0.5", some "A", some "n1"⟩], [2]) ∧
    processPass [⟨1, 1, "A", "n1"⟩, ⟨2, 1, "B", "n2"⟩]
        ([⟨1, 1, some "10.0.0.5", some "A", some "n1"⟩], [2])
        [⟨1, 1, some "10.0.0.5", some "A", none⟩] =
      .error () :=
  ⟨rfl, rfl⟩

/-- C9: the spec claims the configuration error is the only
discovery-phase condition surfaced to the caller.  With a perfectly
usable network (first conjunct), a registered device that answers again
from a new address while another record is still pending makes the
reconciliation loop re-match it and crash with a `KeyError`, which
propagates to the caller of `find_appliances`. -/
theorem key_error_surfaced_to_caller :
    get_broadcast_addresses [] [⟨false, false, true, true, "192.168.1.255"⟩] =
      .ok ["192.168.1.255"] ∧
    find_appliances ⟨fun t => t == 1, fun _ => true⟩
      (some [⟨1, 1, "A", "n1"⟩, ⟨2, 1, "B", "n2"⟩]) []
      [⟨false, false, true, true, "192.168.1.255"⟩]
      [[("10.0.0.5", ⟨1, 1, some "10.0.0.5", some "A", none⟩)],
        [("10.0.0.6", ⟨1, 1, some "10.0.0.6", some "A", none⟩)]] =
      .error .keyError :=
  ⟨rfl, rfl⟩

theorem mutFirstMatch_first (known : CloudRecord) (a : LanDevice)
    (l2 : List LanDevice) :
    ∀ l1 : List LanDevice, (∀ b ∈ l1, matches_lan_cloud b known = false) →
      matches_lan_cloud a known = true →
      mutFirstMatch known (l1 ++ a :: l2) =
        some (l1 ++ setNameSn known a :: l2) := by
  intro l1
  induction l1 with
  | nil => intro _ hm; simp [mutFirstMatch, hm]
  | cons x t ih =>
    intro hno hm
    have hx : matches_lan_cloud x known = false := hno x (by simp)
    simp [mutFirstMatch, hx, ih (fun b hb => hno b (by simp [hb])) hm]

/-- C10: when the synthesizer processes a supported cloud record that
matches an existing appliance (the first match, with no earlier appliance
matching), that appliance is mutated in place: its display name is
overwritten with the record's name, its serial number is set from the
record exactly when it was previously null, and its id, device type and
network address are unchanged; no other entry of the list is touched. -/
theorem synthesis_mutates_matched_appliance (env : ScanEnv)
    (known : CloudRecord) (l1 : List LanDevice) (a : LanDevice)
    (l2 : List LanDevice) (hsup : env.sup known.type = true)
    (hno : ∀ b ∈ l1, matches_lan_cloud b known = false)
    (hm : matches_lan_cloud a known = true) :
    addMissingStep env (l1 ++ a :: l2) known =
      l1 ++ setNameSn known a :: l2 ∧
    (setNameSn known a).name = some known.name ∧
    (a.sn = none → (setNameSn known a).sn = some known.sn) ∧
    (∀ s, a.sn = some s → (setNameSn known a).sn = some s) ∧
    (setNameSn known a).id = a.id ∧ (setNameSn known a).type = a.type ∧
    (setNameSn known a).ip = a.ip := by
  refine ⟨?_, rfl, ?_, ?_, rfl, rfl, rfl⟩
  · simp [addMissingStep, hsup, mutFirstMatch_first known a l2 l1 hno hm]
  · intro h; simp [setNameSn, h]
  · intro s h; simp [setNameSn, h]

/-- Witness for C10: a discovered appliance with a null serial number
matched by a supported record gets the record's name and serial while
keeping id, type and address. -/
theorem synthesis_mutates_matched_appliance_witness :
    addMissingStep ⟨fun t => t == 1, fun _ => true⟩
        ([] ++ (⟨1, 1, some "10.0.0.5", none, none⟩ : LanDevice) :: [])
        ⟨1, 1, "A", "n1"⟩ =
      [] ++ setNameSn ⟨1, 1, "A", "n1"⟩
        ⟨1, 1, some "10.0.0.5", none, none⟩ :: [] ∧
    (setNameSn ⟨1, 1, "A", "n1"⟩
        ⟨1, 1, some "10.0.0.5", none, none⟩).name = some "n1" ∧
    ((⟨1, 1, some "10.0.0.5", none, none⟩ : LanDevice).sn = none →
      (setNameSn ⟨1, 1, "A", "n1"⟩
        ⟨1, 1, some "10.0.0.5", none, none⟩).sn = some "A") ∧
    (∀ s, (⟨1, 1, some "10.0.0.5", none, none⟩ : LanDevice).sn = some s →
      (setNameSn ⟨1, 1, "A", "n1"⟩
        ⟨1, 1, some "10.0.0.5", none, none⟩).sn = some s) ∧
    (setNameSn ⟨1, 1, "A", "n1"⟩
        ⟨1, 1, some "10.0.0.5", none, none⟩).id = 1 ∧
    (setNameSn ⟨1, 1, "A", "n1"⟩
        ⟨1, 1, some "10.0.0.5", none, none⟩).type = 1 ∧
    (setNameSn ⟨1, 1, "A", "n1"⟩
        ⟨1, 1, some "10.0.0.5", none, none⟩).ip = some "10.0.0.5" :=
  synthesis_mutates_matched_appliance ⟨fun t => t == 1, fun _ => true⟩
    ⟨1, 1, "A", "n1"⟩ [] ⟨1, 1, some "10.0.0.5", none, none⟩ [] rfl
    (by simp) rfl

theorem matches_congr (a b : LanDevice) (hid : b.id = a.id)
    (hsn : b.sn = a.sn) (r : CloudRecord) :
    matches_lan_cloud b r = matches_lan_cloud a r := by
  simp only [matches_lan_cloud, hid, hsn]

theorem updateFirstById_mem_forward (apps : List LanDevice) (d : LanDevice) :
    ∀ a ∈ apps, ∃ b ∈ updateFirstById apps d, OnlyIpChanged a b := by
  intro a ha
  obtain ⟨i, hi⟩ := List.get_of_mem ha
  have hga : apps[(i : Nat)]? = some a := by
    simp [List.get_eq_getElem] at hi
    simp [List.getElem?_eq_getElem i.isLt, hi]
  obtain ⟨b, hb, hab⟩ := updateFirstById_getElem? apps d i a hga
  exact ⟨b, List.getElem?_mem hb, hab⟩

theorem updateFirstById_mem_backward (apps : List LanDevice)
    (d : LanDevice) :
    ∀ b ∈ updateFirstById apps d, ∃ a ∈ apps, OnlyIpChanged a b := by
  induction apps with
  | nil => intro b hb; simp [updateFirstById] at hb
  | cons x rest ih =>
    intro b hb
    simp only [updateFirstById] at hb
    split at hb
    · rcases List.mem_cons.mp hb with rfl | hbr
      · split
        · exact ⟨x, by simp, update_only_ip x d⟩
        · exact ⟨x, by simp, OnlyIpChanged.refl x⟩
      · exact ⟨b, by simp [hbr], OnlyIpChanged.refl b⟩
    · rcases List.mem_cons.mp hb with rfl | hbr
      · exact ⟨b, by simp, OnlyIpChanged.refl b⟩
      · obtain ⟨a, ha, hab⟩ := ih b hbr
        exact ⟨a, by simp [ha], hab⟩

theorem matches_unique (records : List CloudRecord)
    (hid : (records.map CloudRecord.id).Nodup)
    (hsn : (records.map CloudRecord.sn).Nodup)
    (r r0 : CloudRecord) (hr : r ∈ records) (hr0 : r0 ∈ records)
    (d : LanDevice) (h1 : matches_lan_cloud d r = true)
    (h2 : matches_lan_cloud d r0 = true) : r = r0 := by
  unfold matches_lan_cloud at h1 h2
  cases hd : d.sn with
  | some s =>
    rw [hd] at h1 h2
    simp only [Bool.and_eq_true, beq_iff_eq, Bool.not_eq_true'] at h1 h2
    exact List.inj_on_of_nodup_map hsn hr hr0 (by rw [h1.2, h2.2])
  | none =>
    rw [hd] at h1 h2
    simp only [beq_iff_eq] at h1 h2
    exact List.inj_on_of_nodup_map hid hr hr0 (by rw [← h1, ← h2])

theorem idSet_eq_self_of_nodup : ∀ l : List Nat, l.Nodup → idSet l = l := by
  intro l
  induction l with
  | nil => intro _; rfl
  | cons x xs ih =>
    intro h
    have hx : x ∉ xs := (List.nodup_cons.mp h).1
    simp [idSet, hx, ih (List.nodup_cons.mp h).2]

theorem processScanned_inv (records : List CloudRecord)
    (hid : (records.map CloudRecord.id).Nodup)
    (hsn : (records.map CloudRecord.sn).Nodup)
    (st : List LanDevice × List Nat) (d : LanDevice)
    (res : List LanDevice × List Nat)
    (h : processScanned records st d = .ok res)
    (hinv : ReconInv records st.fst st.snd) :
    ReconInv records res.fst res.snd := by
  obtain ⟨hnd, hsub, hlen, hfound, hpend⟩ := hinv
  rcases processScanned_ok_cases records st d res h with h1 | ⟨r0, hm, hmem, h1⟩
  · subst h1
    refine ⟨hnd, hsub, by simpa [updateFirstById_length] using hlen, ?_, ?_⟩
    · intro r hr hnot
      obtain ⟨a, ha, hma⟩ := hfound r hr hnot
      obtain ⟨b, hb, hab⟩ := updateFirstById_mem_forward st.fst d a ha
      exact ⟨b, hb, by rw [matches_congr a b hab.1 hab.2.2.1 r]; exact hma⟩
    · intro r hr hrp b hb
      obtain ⟨a, ha, hab⟩ := updateFirstById_mem_backward st.fst d b hb
      rw [matches_congr a b hab.1 hab.2.2.1 r]
      exact hpend r hr hrp a ha
  · have hr0 : r0 ∈ records := List.mem_of_find?_eq_some hm
    have hmd : matches_lan_cloud d r0 = true := List.find?_some hm
    subst h1
    have hpos : 0 < st.snd.length := List.length_pos_of_mem hmem
    refine ⟨hnd.erase _, ?_, ?_, ?_, ?_⟩
    · intro i hi; exact hsub i (List.mem_of_mem_erase hi)
    · simp only [List.length_append, updateFirstById_length,
        List.length_singleton, List.length_erase_of_mem hmem]
      omega
    · intro r hr hnot
      by_cases hrp : r.id ∈ st.snd
      · have hreq : r.id = r0.id := by
          by_contra hne
          exact hnot ((hnd.mem_erase_iff).mpr ⟨hne, hrp⟩)
        have hrr0 : r = r0 := List.inj_on_of_nodup_map hid hr hr0 hreq
        subst hrr0
        refine ⟨{ d with name := some r.name }, by simp, ?_⟩
        rw [matches_congr d { d with name := some r.name } rfl rfl r]
        exact hmd
      · obtain ⟨a, ha, hma⟩ := hfound r hr hrp
        obtain ⟨b, hb, hab⟩ := updateFirstById_mem_forward st.fst d a ha
        refine ⟨b, List.mem_append_left _ hb, ?_⟩
        rw [matches_congr a b hab.1 hab.2.2.1 r]
        exact hma
    · intro r hr hrp b hb
      have hrp' : r.id ∈ st.snd := List.mem_of_mem_erase hrp
      have hne : r.id ≠ r0.id := ((hnd.mem_erase_iff).mp hrp).1
      rcases List.mem_append.mp hb with hb | hb
      · obtain ⟨a, ha, hab⟩ := updateFirstById_mem_backward st.fst d b hb
        rw [matches_congr a b hab.1 hab.2.2.1 r]
        exact hpend r hr hrp' a ha
      · have hbd : b = { d with name := some r0.name } := by simpa using hb
        subst hbd
        by_contra hmr
        rw [Bool.not_eq_false] at hmr
        have hdm : matches_lan_cloud d r = true := by
          rw [← matches_congr d { d with name := some r0.name } rfl rfl r]
          exact hmr
        exact hne (congrArg CloudRecord.id
          (matches_unique records hid hsn r r0 hr hr0 d hdm hmd))

theorem processList_inv (records : List CloudRecord)
    (hid : (records.map CloudRecord.id).Nodup)
    (hsn : (records.map CloudRecord.sn).Nodup) :
    ∀ (ds : List LanDevice) (st res : List LanDevice × List Nat),
      processList records ds st = .ok res →
      ReconInv records st.fst st.snd → ReconInv records res.fst res.snd := by
  intro ds
  induction ds with
  | nil => intro st res h hinv; injection h with h; subst h; exact hinv
  | cons d rest ih =>
    intro st res h hinv
    unfold processList at h
    cases hstep : processScanned records st d with
    | error e => rw [hstep] at h; exact absurd h (by simp)
    | ok st1 =>
      rw [hstep] at h
      exact ih st1 res h (processScanned_inv records hid hsn st d st1 hstep hinv)

theorem runPasses_inv (env : ScanEnv) (records : List CloudRecord)
    (cp : Bool) (hid : (records.map CloudRecord.id).Nodup)
    (hsn : (records.map CloudRecord.sn).Nodup) :
    ∀ (r : Nat) (passes : List (List (String × LanDevice)))
      (st st' : ScanState),
      runPasses env records cp r passes st = .ok st' →
      ReconInv records st.appliances st.pending →
      ReconInv records st'.appliances st'.pending := by
  intro r
  induction r with
  | zero => intro passes st st' h hinv; injection h with h; subst h; exact hinv
  | succ n ih =>
    intro passes st st' h hinv
    simp only [runPasses] at h
    cases h1 : onePass env records cp st (passes.headD []) with
    | error e => rw [h1] at h; exact absurd h (by simp)
    | ok st1 =>
      rw [h1] at h
      replace h : (if st1.pending.length = 0 then Except.ok st1
          else runPasses env records cp n passes.tail st1) = Except.ok st' := h
      obtain ⟨res, hproc, hshape⟩ :=
        onePass_ok_shape env records cp st (passes.headD []) st1 h1
      have hinv1 : ReconInv records st1.appliances st1.pending := by
        rw [hshape]
        exact processList_inv records hid hsn _ (st.appliances, st.pending)
          res hproc hinv
      by_cases hp : st1.pending.length = 0
      · rw [if_pos hp] at h; injection h with h; subst h; exact hinv1
      · rw [if_neg hp] at h; exact ih passes.tail st1 st' h hinv1

theorem mutFirstMatch_none_of (known : CloudRecord) :
    ∀ apps : List LanDevice,
      (∀ a ∈ apps, matches_lan_cloud a known = false) →
      mutFirstMatch known apps = none := by
  intro apps
  induction apps with
  | nil => intro _; rfl
  | cons x rest ih =>
    intro h
    have hx := h x (by simp)
    simp only [mutFirstMatch]
    rw [if_neg (by simp [hx]), ih (fun a ha => h a (by simp [ha]))]
    rfl

theorem mutFirstMatch_isSome_of_match (known : CloudRecord) :
    ∀ (apps : List LanDevice) (a : LanDevice), a ∈ apps →
      matches_lan_cloud a known = true →
      ∃ out, mutFirstMatch known apps = some out := by
  intro apps
  induction apps with
  | nil => intro a ha; simp at ha
  | cons x rest ih =>
    intro a ha hm
    simp only [mutFirstMatch]
    by_cases hx : matches_lan_cloud x known = true
    · rw [if_pos hx]; exact ⟨setNameSn known x :: rest, rfl⟩
    · rw [if_neg hx]
      rcases List.mem_cons.mp ha with rfl | ha
      · exact absurd hm hx
      · obtain ⟨out, hout⟩ := ih a ha hm
        exact ⟨x :: out, by rw [hout]; rfl⟩

theorem mutFirstMatch_some_shape (known : CloudRecord) :
    ∀ (apps out : List LanDevice), mutFirstMatch known apps = some out →
      ∃ l1 a l2, apps = l1 ++ a :: l2 ∧
        out = l1 ++ setNameSn known a :: l2 ∧
        matches_lan_cloud a known = true ∧
        ∀ b ∈ l1, matches_lan_cloud b known = false := by
  intro apps
  induction apps with
  | nil => intro out h; simp [mutFirstMatch] at h
  | cons x rest ih =>
    intro out h
    simp only [mutFirstMatch] at h
    by_cases hx : matches_lan_cloud x known = true
    · rw [if_pos hx] at h
      injection h with h
      exact ⟨[], x, rest, by simp, by simp [h], hx, by simp⟩
    · rw [if_neg hx] at h
      cases hr : mutFirstMatch known rest with
      | none => rw [hr] at h; simp at h
      | some out' =>
        rw [hr] at h
        simp only [Option.map_some'] at h
        injection h with h
        obtain ⟨l1, a, l2, he1, he2, hm, hl1⟩ := ih out' hr
        have hx' : matches_lan_cloud x known = false := by
          simpa using hx
        refine ⟨x :: l1, a, l2, by simp [he1], ?_, hm, ?_⟩
        · rw [← h]; simp [he2]
        · intro b hb
          rcases List.mem_cons.mp hb with rfl | hb
          · exact hx'
          · exact hl1 b hb

theorem filter_mem_length (P : List Nat) (records : List CloudRecord)
    (hP : P.Nodup) (hid : (records.map CloudRecord.id).Nodup)
    (hsub : ∀ x ∈ P, x ∈ records.map CloudRecord.id) :
    (records.filter (fun r => decide (r.id ∈ P))).length = P.length := by
  have h1 : (records.filter (fun r => decide (r.id ∈ P))).length
      = records.countP (fun r => decide (r.id ∈ P)) :=
    (List.countP_eq_length_filter _ _).symm
  have h2 : records.countP (fun r => decide (r.id ∈ P))
      = (records.map CloudRecord.id).countP (fun x => decide (x ∈ P)) := by
    rw [List.countP_map]
    rfl
  have h3 : (records.map CloudRecord.id).countP (fun x => decide (x ∈ P))
      = ((records.map CloudRecord.id).filter
          (fun x => decide (x ∈ P))).length :=
    List.countP_eq_length_filter _ _
  rw [h1, h2, h3]
  have hnf : ((records.map CloudRecord.id).filter
      (fun x => decide (x ∈ P))).Nodup := hid.filter _
  have hmem : ∀ x, x ∈ (records.map CloudRecord.id).filter
      (fun x => decide (x ∈ P)) ↔ x ∈ P := by
    intro x
    simp only [List.mem_filter, decide_eq_true_eq]
    exact ⟨fun h => h.2, fun h => ⟨hsub x h, h⟩⟩
  exact ((List.perm_ext_iff_of_nodup hnf hP).mpr hmem).length_eq

theorem add_missing_length (env : ScanEnv) (P : List Nat) :
    ∀ (records : List CloudRecord) (apps : List LanDevice),
      (∀ r ∈ records, env.sup r.type = true) →
      (records.map CloudRecord.id).Nodup →
      (records.map CloudRecord.sn).Nodup →
      (∀ r ∈ records, r.id ∈ P →
        ∀ a ∈ apps, matches_lan_cloud a r = false) →
      (∀ r ∈ records, r.id ∉ P →
        ∃ a ∈ apps, matches_lan_cloud a r = true) →
      (add_missing_appliances env records apps).length =
        apps.length + (records.filter (fun r => decide (r.id ∈ P))).length := by
  intro records
  induction records with
  | nil => intro apps _ _ _ _ _; simp [add_missing_appliances]
  | cons r0 rest ih =>
    intro apps hsup hid hsn hS1 hS2
    have hsup0 : env.sup r0.type = true := hsup r0 (by simp)
    have hid' : (CloudRecord.id r0 :: rest.map CloudRecord.id).Nodup := by
      simpa using hid
    have hidr := (List.nodup_cons.mp hid').2
    have hsn' : (CloudRecord.sn r0 :: rest.map CloudRecord.sn).Nodup := by
      simpa using hsn
    have hsnr := (List.nodup_cons.mp hsn').2
    have hsn_head : ∀ r ∈ rest, r.sn ≠ r0.sn := fun r hr heq =>
      (List.nodup_cons.mp hsn').1 (heq ▸ List.mem_map_of_mem CloudRecord.sn hr)
    have hstep_eq : add_missing_appliances env (r0 :: rest) apps =
        add_missing_appliances env rest (addMissingStep env apps r0) := rfl
    by_cases hp : r0.id ∈ P
    · have hnom0 : ∀ a ∈ apps, matches_lan_cloud a r0 = false :=
        fun a ha => hS1 r0 (by simp) hp a ha
      have hnone := mutFirstMatch_none_of r0 apps hnom0
      have hstep : addMissingStep env apps r0 =
          apps ++ [⟨r0.id, r0.type, none, some r0.sn, some r0.name⟩] := by
        simp [addMissingStep, hsup0, hnone]
        rfl
      have hS1t : ∀ r ∈ rest, r.id ∈ P → ∀ a ∈ apps ++
          [(⟨r0.id, r0.type, none, some r0.sn, some r0.name⟩ : LanDevice)],
          matches_lan_cloud a r = false := by
        intro r hr hrP a ha
        rcases List.mem_append.mp ha with ha | ha
        · exact hS1 r (by simp [hr]) hrP a ha
        · have hane : a =
              (⟨r0.id, r0.type, none, some r0.sn, some r0.name⟩ : LanDevice) := by
            simpa using ha
          subst hane
          simp [matches_lan_cloud, beq_eq_false_iff_ne.mpr (hsn_head r hr)]
      have hS2t : ∀ r ∈ rest, r.id ∉ P → ∃ a ∈ apps ++
          [(⟨r0.id, r0.type, none, some r0.sn, some r0.name⟩ : LanDevice)],
          matches_lan_cloud a r = true := by
        intro r hr hrP
        obtain ⟨a, ha, hma⟩ := hS2 r (by simp [hr]) hrP
        exact ⟨a, List.mem_append_left _ ha, hma⟩
      rw [hstep_eq, hstep,
        ih _ (fun r hr => hsup r (by simp [hr])) hidr hsnr hS1t hS2t,
        List.filter_cons_of_pos (by simpa using hp)]
      simp
      omega
    · obtain ⟨w, hw, hmw⟩ := hS2 r0 (by simp) hp
      obtain ⟨out, hout⟩ := mutFirstMatch_isSome_of_match r0 apps w hw hmw
      obtain ⟨l1, b, l2, he1, he2, hmb, hl1⟩ :=
        mutFirstMatch_some_shape r0 apps out hout
      have hstep : addMissingStep env apps r0 = out := by
        simp [addMissingStep, hsup0, hout]
      have hS1t : ∀ r ∈ rest, r.id ∈ P →
          ∀ a ∈ out, matches_lan_cloud a r = false := by
        intro r hr hrP a ha
        rw [he2] at ha
        rcases List.mem_append.mp ha with ha | ha
        · exact hS1 r (by simp [hr]) hrP a
            (by rw [he1]; exact List.mem_append_left _ ha)
        · rcases List.mem_cons.mp ha with rfl | ha
          · cases hbsn : b.sn with
            | some s =>
              have hsn_eq : (setNameSn r0 b).sn = b.sn := by
                simp [setNameSn, hbsn]
              rw [matches_congr b (setNameSn r0 b) rfl hsn_eq r]
              exact hS1 r (by simp [hr]) hrP b
                (by rw [he1]; exact List.mem_append_right _ (by simp))
            | none =>
              have hsn_eq : (setNameSn r0 b).sn = some r0.sn := by
                simp [setNameSn, hbsn]
              simp [matches_lan_cloud, hsn_eq,
                beq_eq_false_iff_ne.mpr (hsn_head r hr)]
          · exact hS1 r (by simp [hr]) hrP a
              (by rw [he1]; exact List.mem_append_right _ (by simp [ha]))
      have hS2t : ∀ r ∈ rest, r.id ∉ P →
          ∃ a ∈ out, matches_lan_cloud a r = true := by
        intro r hr hrP
        obtain ⟨a, ha, hma⟩ := hS2 r (by simp [hr]) hrP
        rw [he1] at ha
        rcases List.mem_append.mp ha with ha | ha
        · exact ⟨a, by rw [he2]; exact List.mem_append_left _ ha, hma⟩
        · rcases List.mem_cons.mp ha with rfl | ha
          · exfalso
            have hru : r = r0 := matches_unique (r0 :: rest) hid hsn r r0
              (by simp [hr]) (by simp) a hma hmb
            exact hsn_head r hr (by rw [hru])
          · exact ⟨a, by
              rw [he2]
              exact List.mem_append_right _ (by simp [ha]), hma⟩
      rw [hstep_eq, hstep,
        ih out (fun r hr => hsup r (by simp [hr])) hidr hsnr hS1t hS2t,
        List.filter_cons_of_neg (by simpa using hp), he2, he1]
      simp

/-- C3 (amended): whenever a cloud session was used, every registered
record has a supported device type and records are pairwise distinct in
id and serial number, a successful run of the reconciliation engine
returns exactly as many appliances as there are supported registered
records, even when some of those devices never answered (the placeholder
synthesizer fills the gap); without the all-supported restriction a
device matching an unsupported record by serial number can inflate the
list past the supported count. -/
theorem result_size_eq_supported_count (env : ScanEnv)
    (records : List CloudRecord)
    (passes : List (List (String × LanDevice))) (r : Nat)
    (apps : List LanDevice)
    (hsup : ∀ rec ∈ records, env.sup rec.type = true)
    (hid : (records.map CloudRecord.id).Nodup)
    (hsn : (records.map CloudRecord.sn).Nodup)
    (h : find_appliances_on_lan_retries env (some records) passes r =
      .ok apps) :
    apps.length = supportedCount env records := by
  have hcount : supportedCount env records = records.length := by
    unfold supportedCount
    rw [List.filter_eq_self.mpr (fun rec hrec => by simp [hsup rec hrec])]
  have hid2 : ((records.map fun x => x.id)).Nodup := hid
  simp only [find_appliances_on_lan_retries, Option.getD_some,
    Option.isSome_some] at h
  rw [idSet_eq_self_of_nodup _ hid2] at h
  cases hrun : runPasses env records true r passes
      ⟨[], [], records.map fun x => x.id, 0⟩ with
  | error e => rw [hrun] at h; exact absurd h (by simp)
  | ok st =>
    rw [hrun] at h
    replace h : (if st.appliances.length < supportedCount env records then
        Except.ok (add_missing_appliances env records st.appliances)
      else Except.ok st.appliances) = Except.ok apps := h
    have hinv0 : ReconInv records [] (records.map fun x => x.id) := by
      refine ⟨hid, fun i hi => hi, by simp, ?_, ?_⟩
      · intro rec hrec hnot
        exact absurd (List.mem_map_of_mem _ hrec) hnot
      · intro rec _ _ a ha
        simp at ha
    have hinv := runPasses_inv env records true hid hsn r passes
      ⟨[], [], records.map fun x => x.id, 0⟩ st hrun hinv0
    obtain ⟨hnd, hsub, hlen, hfound, hpend⟩ := hinv
    by_cases hlt : st.appliances.length < supportedCount env records
    · rw [if_pos hlt] at h
      injection h with h
      subst h
      rw [add_missing_length env st.pending records st.appliances hsup hid
        hsn hpend hfound,
        filter_mem_length st.pending records hnd hid hsub]
      omega
    · rw [if_neg hlt] at h
      injection h with h
      subst h
      omega

/-- Witness for C3 (amended): the spec scenario — three supported
registered records, only two of which answer — yields exactly three
appliances. -/
theorem result_size_eq_supported_count_witness :
    ∃ l, find_appliances_on_lan_retries ⟨fun t => t == 1, fun _ => true⟩
        (some [⟨1, 1, "A", "n1"⟩, ⟨2, 1, "B", "n2"⟩, ⟨3, 1, "C", "n3"⟩])
        [[("10.0.0.5", ⟨1, 1, some "10.0.0.5", some "A", none⟩)],
          [("10.0.0.6", ⟨2, 1, some "10.0.0.6", some "B", none⟩)]] 3 =
        .ok l ∧
      l.length = supportedCount ⟨fun t => t == 1, fun _ => true⟩
        [⟨1, 1, "A", "n1"⟩, ⟨2, 1, "B", "n2"⟩, ⟨3, 1, "C", "n3"⟩] :=
  ⟨[⟨1, 1, some "10.0.0.5", some "A", some "n1"⟩,
      ⟨2, 1, some "10.0.0.6", some "B", some "n2"⟩,
      ⟨3, 1, none, some "C", some "n3"⟩], rfl,
    result_size_eq_supported_count ⟨fun t => t == 1, fun _ => true⟩
      [⟨1, 1, "A", "n1"⟩, ⟨2, 1, "B", "n2"⟩, ⟨3, 1, "C", "n3"⟩]
      [[("10.0.0.5", ⟨1, 1, some "10.0.0.5", some "A", none⟩)],
        [("10.0.0.6", ⟨2, 1, some "10.0.0.6", some "B", none⟩)]] 3
      [⟨1, 1, some "10.0.0.5", some "A", some "n1"⟩,
        ⟨2, 1, some "10.0.0.6", some "B", some "n2"⟩,
        ⟨3, 1, none, some "C", some "n3"⟩]
      (by decide) (by decide) (by decide) rfl⟩

/-- C3 counterexample: the claim as stated — the result size equals the
number of supported registered records whenever a cloud session was used
— fails: with one supported and one unsupported registered record, a
supported device matching the unsupported record by serial number is
appended too, the run returns 2 appliances while the supported count is
1 (and synthesis is skipped because the list is not short). -/
theorem size_mismatch_with_unsupported_record :
    find_appliances_on_lan ⟨fun t => t == 1, fun _ => true⟩
      (some [⟨1, 1, "A", "n1"⟩, ⟨2, 9, "B", "n2"⟩])
      [[("10.0.0.5", ⟨1, 1, some "10.0.0.5", some "A", none⟩),
        ("10.0.0.6", ⟨5, 1, some "10.0.0.6", some "B", none⟩)]] =
      .ok [⟨1, 1, some "10.0.0.5", some "A", some "n1"⟩,
        ⟨5, 1, some "10.0.0.6", some "B", some "n2"⟩] ∧
    supportedCount ⟨fun t => t == 1, fun _ => true⟩
      [⟨1, 1, "A", "n1"⟩, ⟨2, 9, "B", "n2"⟩] = 1 :=
  ⟨rfl, rfl⟩

/-- C4 counterexample: the claim promises exactly one placeholder for
every supported registered record that never matched.  Here the supported
record (id 1) never answers, but a supported device matching the
unsupported record by serial number fills the list to the supported
count, `_add_missing_appliances` is never invoked, and no placeholder for
record 1 exists in the result. -/
theorem unreachable_record_no_placeholder :
    find_appliances_on_lan ⟨fun t => t == 1, fun _ => true⟩
      (some [⟨1, 1, "A", "n1"⟩, ⟨2, 9, "B", "n2"⟩])
      [[("10.0.0.6", ⟨5, 1, some "10.0.0.6", some "B", none⟩)]] =
      .ok [⟨5, 1, some "10.0.0.6", some "B", some "n2"⟩] ∧
    List.count (⟨1, 1, none, some "A", some "n1"⟩ : LanDevice)
      [(⟨5, 1, some "10.0.0.6", some "B", some "n2"⟩ : LanDevice)] = 0 :=
  ⟨rfl, rfl⟩

theorem exists_first_split (a : CloudRecord) :
    ∀ l : List CloudRecord, a ∈ l →
      ∃ l1 l2, l = l1 ++ a :: l2 ∧ a ∉ l1 := by
  intro l
  induction l with
  | nil => intro h; cases h
  | cons x t ih =>
    intro h
    by_cases hx : x = a
    · exact ⟨[], t, by rw [hx]; rfl, by simp⟩
    · have hat : a ∈ t := by
        rcases List.mem_cons.mp h with h | h
        · exact absurd h.symm hx
        · exact h
      obtain ⟨l1, l2, heq, hnm⟩ := ih hat
      refine ⟨x :: l1, l2, by rw [heq]; rfl, ?_⟩
      simp only [List.mem_cons, not_or]
      exact ⟨fun hax => hx hax.symm, hnm⟩

theorem addMissingStep_no_match (env : ScanEnv) (r r' : CloudRecord)
    (hne : r'.sn ≠ r.sn) (apps : List LanDevice)
    (hnom : ∀ a ∈ apps, matches_lan_cloud a r = false) :
    ∀ a ∈ addMissingStep env apps r', matches_lan_cloud a r = false := by
  intro a ha
  unfold addMissingStep at ha
  by_cases hs : env.sup r'.type = true
  · rw [if_pos hs] at ha
    cases hmf : mutFirstMatch r' apps with
    | none =>
      rw [hmf] at ha
      replace ha : a ∈ apps ++
          [setNameSn r' ⟨r'.id, r'.type, none, none, none⟩] := ha
      rcases List.mem_append.mp ha with ha | ha
      · exact hnom a ha
      · have hane : a = setNameSn r' ⟨r'.id, r'.type, none, none, none⟩ := by
          simpa using ha
        subst hane
        simp [matches_lan_cloud, setNameSn,
          beq_eq_false_iff_ne.mpr (Ne.symm hne)]
    | some out =>
      rw [hmf] at ha
      replace ha : a ∈ out := ha
      obtain ⟨l1, b, l2, he1, he2, hmb, _⟩ :=
        mutFirstMatch_some_shape r' apps out hmf
      rw [he2] at ha
      rcases List.mem_append.mp ha with ha | ha
      · exact hnom a (by rw [he1]; exact List.mem_append_left _ ha)
      · rcases List.mem_cons.mp ha with rfl | ha
        · cases hbsn : b.sn with
          | some s =>
            have hsn_eq : (setNameSn r' b).sn = b.sn := by
              simp [setNameSn, hbsn]
            rw [matches_congr b (setNameSn r' b) rfl hsn_eq r]
            have hbm : b ∈ apps := by
              rw [he1]
              exact List.mem_append_right _ (by simp)
            exact hnom b hbm
          | none =>
            have hsn_eq : (setNameSn r' b).sn = some r'.sn := by
              simp [setNameSn, hbsn]
            simp [matches_lan_cloud, hsn_eq,
              beq_eq_false_iff_ne.mpr (Ne.symm hne)]
        · have ham : a ∈ apps := by
            rw [he1]
            exact List.mem_append_right _ (by simp [ha])
          exact hnom a ham
  · rw [if_neg hs] at ha
    exact hnom a ha

theorem addMissing_no_match (env : ScanEnv) (r : CloudRecord) :
    ∀ (recs : List CloudRecord) (apps : List LanDevice),
      (∀ r' ∈ recs, r'.sn ≠ r.sn) →
      (∀ a ∈ apps, matches_lan_cloud a r = false) →
      ∀ a ∈ add_missing_appliances env recs apps,
        matches_lan_cloud a r = false := by
  intro recs
  induction recs with
  | nil => intro apps _ h a ha; exact h a ha
  | cons r' t ih =>
    intro apps hd h
    exact ih (addMissingStep env apps r') (fun x hx => hd x (by simp [hx]))
      (addMissingStep_no_match env r r' (hd r' (by simp)) apps h)

theorem addMissingStep_count_one (env : ScanEnv) (r : CloudRecord)
    (hne0 : r.sn ≠ "") (r'' : CloudRecord)
    (hcase : r'' = r ∨ r''.sn ≠ r.sn) (apps : List LanDevice)
    (hone : apps.count
      (⟨r.id, r.type, none, some r.sn, some r.name⟩ : LanDevice) = 1)
    (hQ2 : ∀ a ∈ apps,
      a ≠ (⟨r.id, r.type, none, some r.sn, some r.name⟩ : LanDevice) →
      matches_lan_cloud a r = false) :
    (addMissingStep env apps r'').count
      (⟨r.id, r.type, none, some r.sn, some r.name⟩ : LanDevice) = 1 ∧
    ∀ a ∈ addMissingStep env apps r'',
      a ≠ (⟨r.id, r.type, none, some r.sn, some r.name⟩ : LanDevice) →
      matches_lan_cloud a r = false := by
  by_cases hs : env.sup r''.type = true
  · unfold addMissingStep
    rw [if_pos hs]
    cases hmf : mutFirstMatch r'' apps with
    | none =>
      rcases hcase with rfl | hnesn
      · exfalso
        have hplm : (⟨r''.id, r''.type, none, some r''.sn, some r''.name⟩ :
            LanDevice) ∈ apps := by
          rw [← List.count_pos_iff]
          omega
        have hit : matches_lan_cloud
            (⟨r''.id, r''.type, none, some r''.sn, some r''.name⟩ :
              LanDevice) r'' = true := by
          simp [matches_lan_cloud, beq_eq_false_iff_ne.mpr hne0]
        obtain ⟨out, hout⟩ :=
          mutFirstMatch_isSome_of_match r'' apps _ hplm hit
        rw [hout] at hmf
        cases hmf
      · have hplne : setNameSn r'' ⟨r''.id, r''.type, none, none, none⟩ ≠
            (⟨r.id, r.type, none, some r.sn, some r.name⟩ : LanDevice) := by
          intro hcontra
          have h2 : some r''.sn = some r.sn := congrArg LanDevice.sn hcontra
          exact hnesn (by injection h2)
        constructor
        · show (apps ++
            [setNameSn r'' ⟨r''.id, r''.type, none, none, none⟩]).count
              (⟨r.id, r.type, none, some r.sn, some r.name⟩ : LanDevice) = 1
          rw [List.count_append, List.count_singleton,
            if_neg (by simp [hplne]), hone]
        · intro a ha hane
          replace ha : a ∈ apps ++
            [setNameSn r'' ⟨r''.id, r''.type, none, none, none⟩] := ha
          rcases List.mem_append.mp ha with ha | ha
          · exact hQ2 a ha hane
          · have haeq : a = setNameSn r''
                ⟨r''.id, r''.type, none, none, none⟩ := by simpa using ha
            subst haeq
            simp [matches_lan_cloud, setNameSn,
              beq_eq_false_iff_ne.mpr (Ne.symm hnesn)]
    | some out =>
      obtain ⟨l1, b, l2, he1, he2, hmb, hl1⟩ :=
        mutFirstMatch_some_shape r'' apps out hmf
      by_cases hbpl : b =
          (⟨r.id, r.type, none, some r.sn, some r.name⟩ : LanDevice)
      · have hr'' : r'' = r := by
          rcases hcase with h | h
          · exact h
          · exfalso
            rw [hbpl] at hmb
            simp only [matches_lan_cloud, Bool.and_eq_true, beq_iff_eq,
              Bool.not_eq_true'] at hmb
            exact h hmb.2
        subst hr''
        rw [hbpl] at he1 he2
        have hset : setNameSn r''
            (⟨r''.id, r''.type, none, some r''.sn, some r''.name⟩ :
              LanDevice) =
            ⟨r''.id, r''.type, none, some r''.sn, some r''.name⟩ := rfl
        have houta : out = apps := by
          rw [he2, hset, he1]
        constructor
        · show out.count
            (⟨r''.id, r''.type, none, some r''.sn, some r''.name⟩ :
              LanDevice) = 1
          rw [houta]
          exact hone
        · intro a ha hane
          replace ha : a ∈ out := ha
          rw [houta] at ha
          exact hQ2 a ha hane
      · have hbm : b ∈ apps := by
          rw [he1]
          exact List.mem_append_right _ (by simp)
        have hbr : matches_lan_cloud b r = false := hQ2 b hbm hbpl
        have hnesn : r''.sn ≠ r.sn := by
          rcases hcase with rfl | h
          · exact absurd hmb (by simp [hbr])
          · exact h
        have hb'ne : setNameSn r'' b ≠
            (⟨r.id, r.type, none, some r.sn, some r.name⟩ : LanDevice) := by
          intro hcontra
          cases hbsn : b.sn with
          | some s =>
            have h1 : (setNameSn r'' b).sn = some s := by
              simp [setNameSn, hbsn]
            have h2 : (setNameSn r'' b).sn = some r.sn := by rw [hcontra]
            have hbs : b.sn = some r.sn := by
              rw [hbsn]
              exact h1.symm.trans h2
            have hmt : matches_lan_cloud b r = true := by
              simp [matches_lan_cloud, hbs, beq_eq_false_iff_ne.mpr hne0]
            simp [hmt] at hbr
          | none =>
            have h1 : (setNameSn r'' b).sn = some r''.sn := by
              simp [setNameSn, hbsn]
            have h2 : (setNameSn r'' b).sn = some r.sn := by rw [hcontra]
            have h3 := h1.symm.trans h2
            exact hnesn (by injection h3)
        have hb'r : matches_lan_cloud (setNameSn r'' b) r = false := by
          cases hbsn : b.sn with
          | some s =>
            have hsn_eq : (setNameSn r'' b).sn = b.sn := by
              simp [setNameSn, hbsn]
            rw [matches_congr b (setNameSn r'' b) rfl hsn_eq r]
            exact hbr
          | none =>
            have hsn_eq : (setNameSn r'' b).sn = some r''.sn := by
              simp [setNameSn, hbsn]
            simp [matches_lan_cloud, hsn_eq,
              beq_eq_false_iff_ne.mpr (Ne.symm hnesn)]
        constructor
        · show out.count
            (⟨r.id, r.type, none, some r.sn, some r.name⟩ : LanDevice) = 1
          have h0 := hone
          rw [he1, List.count_append, List.count_cons,
            if_neg (by simp [hbpl])] at h0
          rw [he2, List.count_append, List.count_cons,
            if_neg (by simp [hb'ne])]
          omega
        · intro a ha hane
          replace ha : a ∈ out := ha
          rw [he2] at ha
          rcases List.mem_append.mp ha with ha | ha
          · have ham : a ∈ apps := by
              rw [he1]
              exact List.mem_append_left _ ha
            exact hQ2 a ham hane
          · rcases List.mem_cons.mp ha with rfl | ha
            · exact hb'r
            · have ham : a ∈ apps := by
                rw [he1]
                exact List.mem_append_right _ (by simp [ha])
              exact hQ2 a ham hane
  · unfold addMissingStep
    rw [if_neg hs]
    exact ⟨hone, hQ2⟩

/-- C4 (amended): whenever the synthesizer runs, every supported
registered record with a non-empty serial number distinct from all other
records' serial numbers that matches no located appliance receives
exactly one placeholder — an entry carrying the record's id, device type,
serial number and display name and no network address.  (The claim as
stated fails because `_find_appliances_on_lan` skips the synthesizer
whenever the located count already reaches the supported count.) -/
theorem placeholder_synthesized_once (env : ScanEnv)
    (records : List CloudRecord) (apps : List LanDevice) (r : CloudRecord)
    (hr : r ∈ records) (hsup : env.sup r.type = true) (hne0 : r.sn ≠ "")
    (hdist : ∀ r' ∈ records, r' ≠ r → r'.sn ≠ r.sn)
    (hnom : ∀ a ∈ apps, matches_lan_cloud a r = false) :
    (add_missing_appliances env records apps).count
      (⟨r.id, r.type, none, some r.sn, some r.name⟩ : LanDevice) = 1 := by
  obtain ⟨l1, l2, heq, hnm⟩ := exists_first_split r records hr
  subst heq
  rw [show add_missing_appliances env (l1 ++ r :: l2) apps =
      add_missing_appliances env l2
        (addMissingStep env (add_missing_appliances env l1 apps) r) from by
    simp [add_missing_appliances, List.foldl_append]]
  have h1 : ∀ a ∈ add_missing_appliances env l1 apps,
      matches_lan_cloud a r = false := by
    refine addMissing_no_match env r l1 apps ?_ hnom
    intro r' hr'
    refine hdist r' (by simp [hr']) ?_
    intro hh
    exact hnm (hh ▸ hr')
  have hnone := mutFirstMatch_none_of r _ h1
  have hstep : addMissingStep env (add_missing_appliances env l1 apps) r =
      add_missing_appliances env l1 apps ++
        [⟨r.id, r.type, none, some r.sn, some r.name⟩] := by
    simp [addMissingStep, hsup, hnone]
    rfl
  rw [hstep]
  have hplmatch : matches_lan_cloud
      (⟨r.id, r.type, none, some r.sn, some r.name⟩ : LanDevice) r = true := by
    simp [matches_lan_cloud, beq_eq_false_iff_ne.mpr hne0]
  have hcount1 : (add_missing_appliances env l1 apps ++
      [(⟨r.id, r.type, none, some r.sn, some r.name⟩ : LanDevice)]).count
      (⟨r.id, r.type, none, some r.sn, some r.name⟩ : LanDevice) = 1 := by
    have hz : (add_missing_appliances env l1 apps).count
        (⟨r.id, r.type, none, some r.sn, some r.name⟩ : LanDevice) = 0 := by
      rw [List.count_eq_zero]
      intro hmem
      have := h1 _ hmem
      rw [hplmatch] at this
      cases this
    rw [List.count_append, List.count_singleton, hz, if_pos (by simp)]
  have hQ2 : ∀ a ∈ add_missing_appliances env l1 apps ++
      [(⟨r.id, r.type, none, some r.sn, some r.name⟩ : LanDevice)],
      a ≠ (⟨r.id, r.type, none, some r.sn, some r.name⟩ : LanDevice) →
      matches_lan_cloud a r = false := by
    intro a ha hane
    rcases List.mem_append.mp ha with ha | ha
    · exact h1 a ha
    · exact absurd (by simpa using ha) hane
  have hfold : ∀ (recs : List CloudRecord) (cur : List LanDevice),
      (∀ r'' ∈ recs, r'' = r ∨ r''.sn ≠ r.sn) →
      cur.count (⟨r.id, r.type, none, some r.sn, some r.name⟩ :
        LanDevice) = 1 →
      (∀ a ∈ cur,
        a ≠ (⟨r.id, r.type, none, some r.sn, some r.name⟩ : LanDevice) →
        matches_lan_cloud a r = false) →
      (add_missing_appliances env recs cur).count
        (⟨r.id, r.type, none, some r.sn, some r.name⟩ : LanDevice) = 1 := by
    intro recs
    induction recs with
    | nil => intro cur _ hc _; exact hc
    | cons r'' t ihh =>
      intro cur hcases hc hq
      obtain ⟨hc', hq'⟩ := addMissingStep_count_one env r hne0 r''
        (hcases r'' (by simp)) cur hc hq
      exact ihh (addMissingStep env cur r'')
        (fun x hx => hcases x (by simp [hx])) hc' hq'
  refine hfold l2 _ ?_ hcount1 hQ2
  intro r'' hr''
  by_cases h : r'' = r
  · exact Or.inl h
  · exact Or.inr (hdist r'' (by simp [hr'']) h)

/-- Witness for C4 (amended): one supported registered record that never
answered, with one unrelated discovered appliance: exactly one
placeholder for the record appears after synthesis. -/
theorem placeholder_synthesized_once_witness :
    (add_missing_appliances ⟨fun t => t == 1, fun _ => true⟩
        [⟨1, 1, "A", "n1"⟩]
        [⟨5, 1, some "10.0.0.6", some "B", none⟩]).count
      (⟨1, 1, none, some "A", some "n1"⟩ : LanDevice) = 1 :=
  placeholder_synthesized_once ⟨fun t => t == 1, fun _ => true⟩
    [⟨1, 1, "A", "n1"⟩] [⟨5, 1, some "10.0.0.6", some "B", none⟩]
    ⟨1, 1, "A", "n1"⟩ (by simp) rfl (by decide) (by decide) (by decide)
